import Mathlib

/-!
Shallow embedding of the request-handling core of `src/app.py`
(restricted-personal-pages): the configuration document, the
`ForbiddenReason` enum, the `/page` route handler, and the diagnostic
record built by `forbidden`.  Pure Lean translations of the Python code;
the YAML round-trip, Flask plumbing and mail logging are out of scope.
-/

/-- Value of one entry of `config['pages']`: the fields read and written by
`src/app.py` (`aliases`, `page`, `ips`, `max_ips`, `cookies`, `max_cookies`). -/
structure PageConfig where
  aliases : List String
  page : String
  ips : List String
  max_ips : Nat
  cookies : List String
  max_cookies : Nat
deriving DecidableEq

/-- The `config['pages']` dict, as an association list in insertion
(= iteration) order.  Python dict keys are unique; theorems that depend on
this carry a `Nodup` hypothesis on the keys. -/
abbrev Config := List (String × PageConfig)

/-- The request data the handler reads: the `name` query parameter
(`None` when absent), `request.remote_addr`, and the `super_secret`
cookie (`None` when absent; Python treats the empty string as falsy). -/
structure Request where
  name : Option String
  remoteIp : String
  cookie : Option String
deriving DecidableEq

/-- Python truthiness of an optional string: `None` and `""` are falsy. -/
def truthy : Option String → Bool
  | none => false
  | some s => !(s == "")

/-- Timestamp model for `datetime.datetime.now()`: the `year` component is
explicit (it is the only component lines 151-153 of `src/app.py` touch);
all remaining components are abstracted into `rest`. -/
structure DateTime where
  year : Int
  rest : Nat
deriving DecidableEq

/-- Python's `datetime.replace(year=...)`: returns a copy with the year
replaced; the receiver is unchanged. -/
def DateTime.replace (d : DateTime) (newYear : Int) : DateTime :=
  { d with year := newYear }

/-- Lines 151-152 of `src/app.py`:
`exp = datetime.datetime.now(); exp.replace(year=exp.year + 1)`.
The result of `replace` is discarded, exactly as in the source. -/
def cookieExpiry (now : DateTime) : DateTime :=
  let exp := now
  let _ := exp.replace (exp.year + 1)
  exp

namespace ForbiddenReason

/-- `ForbiddenReason.NO_NAME = 1` in `src/app.py`. -/
def NO_NAME : Nat := 1

/-- `ForbiddenReason.NO_PAGE = 2` in `src/app.py`. -/
def NO_PAGE : Nat := 2

/-- `ForbiddenReason.IP_ALREADY_USED = 3` in `src/app.py`. -/
def IP_ALREADY_USED : Nat := 3

/-- `ForbiddenReason.MAX_IPS_REACHED = 4` in `src/app.py`. -/
def MAX_IPS_REACHED : Nat := 4

/-- `ForbiddenReason.COOKIE_ALREADY_USED = 5` in `src/app.py`. -/
def COOKIE_ALREADY_USED : Nat := 5

/-- `ForbiddenReason.INVALID_COOKIE = 6` in `src/app.py`. -/
def INVALID_COOKIE : Nat := 6

/-- `ForbiddenReason.MAX_COOKIES_REACHED = 6` in `src/app.py` (the source
assigns the value 6 to this member as well). -/
def MAX_COOKIES_REACHED : Nat := 6

/-- The enum members exactly as declared in `src/app.py` lines 84-91,
in declaration order, with their declared values. -/
def declaredMembers : List (String × Nat) :=
  [("NO_NAME", 1), ("NO_PAGE", 2), ("IP_ALREADY_USED", 3),
   ("MAX_IPS_REACHED", 4), ("COOKIE_ALREADY_USED", 5),
   ("INVALID_COOKIE", 6), ("MAX_COOKIES_REACHED", 6)]

end ForbiddenReason

/-- Python `Enum` semantics for `reason.name`: a member whose value repeats
an earlier member's value is an alias, and `.name` is the name of the first
member declared with that value. -/
def reasonName (v : Nat) : String :=
  ((ForbiddenReason.declaredMembers.find? (fun m => m.2 == v)).map
    (fun m => m.1)).getD ""

/-- Python's `str.lower()` as used by the source, modelled character-wise
over the string's character list (so it evaluates by kernel reduction).
`Char.toLower` folds ASCII letters only, whereas Python's `str.lower()` is
Unicode-aware, so this model coincides with the source exactly on ASCII
requested names; the one theorem whose truth depends on that agreement
(claim C4's) carries an explicit ASCII hypothesis on the requested name. -/
def strLower (s : String) : String :=
  ⟨s.data.map Char.toLower⟩

/-- The loop condition of lines 111-112 of `src/app.py`:
`name.lower() == config_name or name.lower() in config['pages'][config_name]['aliases']`.
Only the requested name is lowercased. -/
def nameMatches (name : String) (kv : String × PageConfig) : Bool :=
  strLower name == kv.1 || kv.2.aliases.contains (strLower name)

/-- The resolution loop of lines 111-113 of `src/app.py`: iterate over all
pages and keep overwriting `page_item` on every match (there is no
`break`), so the accumulator ends at the final match. -/
def resolveName (name : String) (pages : Config) : Option (String × PageConfig) :=
  pages.foldl (fun acc kv => if nameMatches name kv then some kv else acc) none

/-- Lines 121-125 of `src/app.py`: does `ip` occur in the `ips` list of any
page other than `pageItem`? -/
def ipUsedElsewhere (ip pageItem : String) (pages : Config) : Bool :=
  pages.any (fun kv => !(kv.1 == pageItem) && kv.2.ips.contains ip)

/-- Lines 135-139 of `src/app.py`: does `c` occur in the `cookies` list of
any page other than `pageItem`? -/
def cookieUsedElsewhere (c pageItem : String) (pages : Config) : Bool :=
  pages.any (fun kv => !(kv.1 == pageItem) && kv.2.cookies.contains c)

/-- Line 130 of `src/app.py`:
`config['pages'][page_item]['ips'].append(remote_ip)`. -/
def appendIp (pages : Config) (pageItem ip : String) : Config :=
  pages.map (fun kv =>
    if kv.1 == pageItem then (kv.1, { kv.2 with ips := kv.2.ips ++ [ip] }) else kv)

/-- Line 148 of `src/app.py`:
`config['pages'][page_item]['cookies'].append(cookie)`. -/
def appendCookie (pages : Config) (pageItem c : String) : Config :=
  pages.map (fun kv =>
    if kv.1 == pageItem then (kv.1, { kv.2 with cookies := kv.2.cookies ++ [c] }) else kv)

/-- Result of one request: either `forbidden(config, reason)` (carrying the
reason's Python value and the document state persisted by `open_config`),
or the rendered page plus the `Set-Cookie` data of lines 150-154. -/
inductive Outcome where
  | forbidden (reason : Nat) (doc : Config)
  | served (pageRef cookie : String) (expires : DateTime) (doc : Config)
deriving DecidableEq

/-- The document persisted back by `open_config` when the request ends. -/
def Outcome.doc : Outcome → Config
  | .forbidden _ d => d
  | .served _ _ _ d => d

/-- Lines 132-154 of `src/app.py`: the cookie phase.  `doc` is the current
(possibly already IP-mutated) document, `pageItem`/`pc` the resolved entry,
`freshCookie` the value `''.join(random.choices(string.ascii_lowercase, k=30))`
would produce on this request. -/
def cookiePhase (doc : Config) (pageItem : String) (pc : PageConfig)
    (r : Request) (freshCookie : String) (now : DateTime) : Outcome :=
  if truthy r.cookie then
    let c := r.cookie.getD ""
    if cookieUsedElsewhere c pageItem doc then
      Outcome.forbidden ForbiddenReason.COOKIE_ALREADY_USED doc
    else if !(pc.cookies.contains c) then
      Outcome.forbidden ForbiddenReason.INVALID_COOKIE doc
    else
      Outcome.served pc.page c (cookieExpiry now) doc
  else
    if pc.max_cookies ≤ pc.cookies.length then
      Outcome.forbidden ForbiddenReason.MAX_COOKIES_REACHED doc
    else
      Outcome.served pc.page freshCookie (cookieExpiry now)
        (appendCookie doc pageItem freshCookie)

/-- The `/page` route handler, lines 101-154 of `src/app.py`.  Line 115
is the truthiness test `if not page_item:` — after the scan `page_item` is
either `None` (no match, the `resolveName = none` branch) or the matched
key string, and Python also treats the empty-string key as falsy, so a
matched page whose configured key is `""` is rejected `NO_PAGE` too. -/
def page (doc : Config) (r : Request) (freshCookie : String) (now : DateTime) :
    Outcome :=
  match r.name with
  | none => Outcome.forbidden ForbiddenReason.NO_NAME doc
  | some name =>
    match resolveName name doc with
    | none => Outcome.forbidden ForbiddenReason.NO_PAGE doc
    | some (pageItem, pc) =>
      if pageItem == "" then
        Outcome.forbidden ForbiddenReason.NO_PAGE doc
      else if !(pc.ips.contains r.remoteIp) then
        if ipUsedElsewhere r.remoteIp pageItem doc then
          Outcome.forbidden ForbiddenReason.IP_ALREADY_USED doc
        else if pc.max_ips ≤ pc.ips.length then
          Outcome.forbidden ForbiddenReason.MAX_IPS_REACHED doc
        else
          cookiePhase (appendIp doc pageItem r.remoteIp) pageItem
            { pc with ips := pc.ips ++ [r.remoteIp] } r freshCookie now
      else
        cookiePhase doc pageItem pc r freshCookie now

/-- The diagnostic record assembled by `forbidden` (lines 157-182 of
`src/app.py`) before it is logged. -/
structure Diagnostic where
  reason : String
  entered_name : Option String
  request_ip : String
  ip_names : List String
  cookie : Option String
  cookie_names : List String
deriving DecidableEq

/-- Lines 157-181 of `src/app.py`: build the diagnostic message.
`entered_name` is set only when the `name` query parameter is truthy;
`cookie_names` is collected only when the presented cookie is truthy. -/
def mkDiagnostic (doc : Config) (r : Request) (v : Nat) : Diagnostic :=
  { reason := reasonName v
  , entered_name := if truthy r.name then r.name else none
  , request_ip := r.remoteIp
  , ip_names := (doc.filter (fun kv => kv.2.ips.contains r.remoteIp)).map
      (fun kv => kv.1)
  , cookie := r.cookie
  , cookie_names :=
      if truthy r.cookie then
        (doc.filter (fun kv => kv.2.cookies.contains (r.cookie.getD ""))).map
          (fun kv => kv.1)
      else [] }

/-- No element of `xs` occurs in `ys`. -/
def noShared (xs ys : List String) : Bool :=
  xs.all (fun a => !(ys.contains a))

/-- Every two lists at distinct positions share no element. -/
def pairwiseDisjoint : List (List String) → Bool
  | [] => true
  | xs :: t => (t.all (fun ys => noShared xs ys)) && pairwiseDisjoint t

/-- The keys of the document, in iteration order. -/
def keysOf (doc : Config) : List String := doc.map (fun kv => kv.1)

/-- Projection of the document to (key, ips) pairs. -/
def ipsProj (doc : Config) : List (String × List String) :=
  doc.map (fun kv => (kv.1, kv.2.ips))

/-- Projection of the document to (key, cookies) pairs. -/
def cookiesProj (doc : Config) : List (String × List String) :=
  doc.map (fun kv => (kv.1, kv.2.cookies))

/-- Spec §3 invariant: across all pages, an IP appears in at most one
`ips` list. -/
def ipsUnique (doc : Config) : Bool :=
  pairwiseDisjoint ((ipsProj doc).map (fun kv => kv.2))

/-- Spec §3 invariant: across all pages, a cookie value appears in at most
one `cookies` list. -/
def cookiesUnique (doc : Config) : Bool :=
  pairwiseDisjoint ((cookiesProj doc).map (fun kv => kv.2))

/-- Append `x` to the list stored under key `k` (on key-projected data). -/
def bumpAt (l : List (String × List String)) (k x : String) :
    List (String × List String) :=
  l.map (fun kv => if kv.1 == k then (kv.1, kv.2 ++ [x]) else kv)

/-! Helper lemmas about the embedded operations. -/

theorem foldl_pick_last {α : Type} (p : α → Bool) :
    ∀ (l : List α) (a : Option α),
      l.foldl (fun acc x => if p x then some x else acc) a =
        (l.reverse.find? p).or a
  | [], a => by simp
  | x :: t, a => by
    rw [List.foldl_cons, foldl_pick_last p t, List.reverse_cons,
      List.find?_append, Option.or_assoc]
    congr 1
    cases hp : p x <;> simp [List.find?, hp]

/-- The unconditional scan of lines 111-113 returns the last matching
entry of the document, i.e. the first matching entry of its reverse. -/
theorem resolveName_eq_findRev (n : String) (doc : Config) :
    resolveName n doc = doc.reverse.find? (nameMatches n) := by
  rw [resolveName, foldl_pick_last, Option.or_none]

theorem resolveName_mem {n : String} {doc : Config} {kv : String × PageConfig}
    (h : resolveName n doc = some kv) : kv ∈ doc ∧ nameMatches n kv = true := by
  rw [resolveName_eq_findRev] at h
  exact ⟨List.mem_reverse.mp (List.mem_of_find?_eq_some h), List.find?_some h⟩

theorem resolveName_eq_none_iff (n : String) (doc : Config) :
    resolveName n doc = none ↔ ∀ kv ∈ doc, nameMatches n kv = false := by
  rw [resolveName_eq_findRev, List.find?_eq_none]
  constructor
  · intro h kv hm
    exact Bool.not_eq_true _ ▸ (h kv (List.mem_reverse.mpr hm))
  · intro h kv hm
    simp [h kv (List.mem_reverse.mp hm)]

theorem keysOf_appendIp (doc : Config) (k ip : String) :
    keysOf (appendIp doc k ip) = keysOf doc := by
  simp only [keysOf, appendIp, List.map_map]
  apply List.map_congr_left
  intro kv _
  by_cases h : kv.1 = k <;> simp [h]

theorem keysOf_appendCookie (doc : Config) (k c : String) :
    keysOf (appendCookie doc k c) = keysOf doc := by
  simp only [keysOf, appendCookie, List.map_map]
  apply List.map_congr_left
  intro kv _
  by_cases h : kv.1 = k <;> simp [h]

theorem cookiesProj_appendIp (doc : Config) (k ip : String) :
    cookiesProj (appendIp doc k ip) = cookiesProj doc := by
  simp only [cookiesProj, appendIp, List.map_map]
  apply List.map_congr_left
  intro kv _
  by_cases h : kv.1 = k <;> simp [h]

theorem ipsProj_appendCookie (doc : Config) (k c : String) :
    ipsProj (appendCookie doc k c) = ipsProj doc := by
  simp only [ipsProj, appendCookie, List.map_map]
  apply List.map_congr_left
  intro kv _
  by_cases h : kv.1 = k <;> simp [h]

theorem ipsProj_appendIp (doc : Config) (k ip : String) :
    ipsProj (appendIp doc k ip) = bumpAt (ipsProj doc) k ip := by
  simp only [ipsProj, appendIp, bumpAt, List.map_map]
  apply List.map_congr_left
  intro kv _
  by_cases h : kv.1 = k <;> simp [h]

theorem cookiesProj_appendCookie (doc : Config) (k c : String) :
    cookiesProj (appendCookie doc k c) = bumpAt (cookiesProj doc) k c := by
  simp only [cookiesProj, appendCookie, bumpAt, List.map_map]
  apply List.map_congr_left
  intro kv _
  by_cases h : kv.1 = k <;> simp [h]

theorem cookiesUnique_appendIp (doc : Config) (k ip : String) :
    cookiesUnique (appendIp doc k ip) = cookiesUnique doc := by
  rw [cookiesUnique, cookiesProj_appendIp, cookiesUnique]

theorem ipsUnique_appendCookie (doc : Config) (k c : String) :
    ipsUnique (appendCookie doc k c) = ipsUnique doc := by
  rw [ipsUnique, ipsProj_appendCookie, ipsUnique]

theorem noShared_iff {xs ys : List String} :
    noShared xs ys = true ↔ ∀ a ∈ xs, a ∉ ys := by
  simp [noShared]

theorem noShared_append_right {xs ys : List String} {x : String}
    (h : noShared xs ys = true) (hx : x ∉ xs) :
    noShared xs (ys ++ [x]) = true := by
  rw [noShared_iff] at h ⊢
  intro a ha
  simp only [List.mem_append, List.mem_singleton]
  rintro (hy | rfl)
  · exact h a ha hy
  · exact hx ha

theorem noShared_append_left {xs ys : List String} {x : String}
    (h : noShared xs ys = true) (hx : x ∉ ys) :
    noShared (xs ++ [x]) ys = true := by
  rw [noShared_iff] at h ⊢
  intro a ha
  rcases List.mem_append.mp ha with h1 | h1
  · exact h a h1
  · rw [List.mem_singleton.mp h1]; exact hx

theorem bumpAt_of_not_mem (x : String) :
    ∀ {l : List (String × List String)} {k : String},
      k ∉ l.map Prod.fst → bumpAt l k x = l
  | [], _, _ => rfl
  | kv :: t, k, h => by
    simp only [List.map_cons, List.mem_cons] at h
    push_neg at h
    have h1 : (kv.1 == k) = false := beq_eq_false_iff_ne.mpr (Ne.symm h.1)
    simp only [bumpAt, List.map_cons, h1, Bool.false_eq_true, if_false]
    have h2 := bumpAt_of_not_mem x h.2
    simp only [bumpAt] at h2
    rw [h2]

theorem pairwiseDisjoint_cons (xs : List String) (t : List (List String)) :
    pairwiseDisjoint (xs :: t) =
      ((t.all (fun ys => noShared xs ys)) && pairwiseDisjoint t) := rfl

theorem bump_pairwiseDisjoint (k x : String) :
    ∀ (l : List (String × List String)),
      (l.map Prod.fst).Nodup →
      pairwiseDisjoint (l.map Prod.snd) = true →
      (∀ kv ∈ l, kv.1 ≠ k → x ∉ kv.2) →
      pairwiseDisjoint ((bumpAt l k x).map Prod.snd) = true
  | [], _, _, _ => rfl
  | kv :: t, hnd, hpd, hx => by
    rw [List.map_cons, List.nodup_cons] at hnd
    rw [List.map_cons, pairwiseDisjoint_cons, Bool.and_eq_true] at hpd
    by_cases hk : kv.1 = k
    · -- the head entry is the one being bumped
      have hknot : k ∉ t.map Prod.fst := hk ▸ hnd.1
      have hbt : bumpAt t k x = t := bumpAt_of_not_mem x hknot
      have h1 : (kv.1 == k) = true := beq_iff_eq.mpr hk
      rw [show bumpAt (kv :: t) k x =
          (if kv.1 == k then (kv.1, kv.2 ++ [x]) else kv) :: bumpAt t k x from rfl,
        h1, if_pos rfl, hbt, List.map_cons, pairwiseDisjoint_cons, Bool.and_eq_true]
      refine ⟨?_, hpd.2⟩
      rw [List.all_eq_true]
      intro ys hys
      rcases List.mem_map.mp hys with ⟨kv2, hkv2, rfl⟩
      have hne : kv2.1 ≠ k := by
        intro e
        exact hknot (e ▸ List.mem_map_of_mem Prod.fst hkv2)
      have hold : noShared kv.2 kv2.2 = true :=
        List.all_eq_true.mp hpd.1 _ (List.mem_map_of_mem Prod.snd hkv2)
      exact noShared_append_left hold (hx kv2 (List.mem_cons_of_mem kv hkv2) hne)
    · -- the head entry is untouched
      have h1 : (kv.1 == k) = false := beq_eq_false_iff_ne.mpr hk
      rw [show bumpAt (kv :: t) k x =
          (if kv.1 == k then (kv.1, kv.2 ++ [x]) else kv) :: bumpAt t k x from rfl,
        h1, if_neg (by simp)]
      rw [List.map_cons, pairwiseDisjoint_cons, Bool.and_eq_true]
      constructor
      · rw [List.all_eq_true]
        intro ys hys
        rcases List.mem_map.mp hys with ⟨kv2, hkv2, rfl⟩
        rcases List.mem_map.mp hkv2 with ⟨kv3, hkv3, rfl⟩
        have hold : noShared kv.2 kv3.2 = true :=
          List.all_eq_true.mp hpd.1 _ (List.mem_map_of_mem Prod.snd hkv3)
        by_cases h3 : kv3.1 = k
        · have hxk : x ∉ kv.2 := hx kv (List.mem_cons_self kv t) hk
          have h3' : (kv3.1 == k) = true := beq_iff_eq.mpr h3
          rw [h3', if_pos rfl]
          exact noShared_append_right hold hxk
        · have h3' : (kv3.1 == k) = false := beq_eq_false_iff_ne.mpr h3
          rw [h3', if_neg (by simp)]
          exact hold
      · exact bump_pairwiseDisjoint k x t hnd.2 hpd.2
          (fun kv2 h2 => hx kv2 (List.mem_cons_of_mem kv h2))

theorem cookiePhase_cases (doc : Config) (k : String) (pc : PageConfig)
    (r : Request) (f : String) (now : DateTime) :
    (truthy r.cookie = true ∧ cookieUsedElsewhere (r.cookie.getD "") k doc = true ∧
      cookiePhase doc k pc r f now =
        Outcome.forbidden ForbiddenReason.COOKIE_ALREADY_USED doc) ∨
    (truthy r.cookie = true ∧ cookieUsedElsewhere (r.cookie.getD "") k doc = false ∧
      r.cookie.getD "" ∉ pc.cookies ∧
      cookiePhase doc k pc r f now =
        Outcome.forbidden ForbiddenReason.INVALID_COOKIE doc) ∨
    (truthy r.cookie = true ∧ cookieUsedElsewhere (r.cookie.getD "") k doc = false ∧
      r.cookie.getD "" ∈ pc.cookies ∧
      cookiePhase doc k pc r f now =
        Outcome.served pc.page (r.cookie.getD "") (cookieExpiry now) doc) ∨
    (truthy r.cookie = false ∧ pc.max_cookies ≤ pc.cookies.length ∧
      cookiePhase doc k pc r f now =
        Outcome.forbidden ForbiddenReason.MAX_COOKIES_REACHED doc) ∨
    (truthy r.cookie = false ∧ pc.cookies.length < pc.max_cookies ∧
      cookiePhase doc k pc r f now =
        Outcome.served pc.page f (cookieExpiry now) (appendCookie doc k f)) := by
  by_cases ht : truthy r.cookie
  · by_cases he : cookieUsedElsewhere (r.cookie.getD "") k doc
    · exact Or.inl ⟨ht, he, by simp [cookiePhase, ht, he]⟩
    · by_cases hc : r.cookie.getD "" ∈ pc.cookies
      · exact Or.inr (Or.inr (Or.inl ⟨ht, Bool.eq_false_iff.mpr he, hc,
          by simp [cookiePhase, ht, he, hc]⟩))
      · exact Or.inr (Or.inl ⟨ht, Bool.eq_false_iff.mpr he, hc,
          by simp [cookiePhase, ht, he, hc]⟩)
  · by_cases hm : pc.max_cookies ≤ pc.cookies.length
    · exact Or.inr (Or.inr (Or.inr (Or.inl ⟨Bool.eq_false_iff.mpr ht, hm,
        by simp [cookiePhase, ht, hm]⟩)))
    · exact Or.inr (Or.inr (Or.inr (Or.inr ⟨Bool.eq_false_iff.mpr ht,
        Nat.lt_of_not_le hm, by simp [cookiePhase, ht, hm]⟩)))

theorem page_cases (doc : Config) (r : Request) (f : String) (now : DateTime) :
    (r.name = none ∧
      page doc r f now = Outcome.forbidden ForbiddenReason.NO_NAME doc) ∨
    (∃ n, r.name = some n ∧ resolveName n doc = none ∧
      page doc r f now = Outcome.forbidden ForbiddenReason.NO_PAGE doc) ∨
    (∃ n pc, r.name = some n ∧ resolveName n doc = some ("", pc) ∧
      page doc r f now = Outcome.forbidden ForbiddenReason.NO_PAGE doc) ∨
    (∃ n k pc, r.name = some n ∧ resolveName n doc = some (k, pc) ∧ k ≠ "" ∧
      r.remoteIp ∉ pc.ips ∧ ipUsedElsewhere r.remoteIp k doc = true ∧
      page doc r f now = Outcome.forbidden ForbiddenReason.IP_ALREADY_USED doc) ∨
    (∃ n k pc, r.name = some n ∧ resolveName n doc = some (k, pc) ∧ k ≠ "" ∧
      r.remoteIp ∉ pc.ips ∧ ipUsedElsewhere r.remoteIp k doc = false ∧
      pc.max_ips ≤ pc.ips.length ∧
      page doc r f now = Outcome.forbidden ForbiddenReason.MAX_IPS_REACHED doc) ∨
    (∃ n k pc, r.name = some n ∧ resolveName n doc = some (k, pc) ∧ k ≠ "" ∧
      r.remoteIp ∉ pc.ips ∧ ipUsedElsewhere r.remoteIp k doc = false ∧
      pc.ips.length < pc.max_ips ∧
      page doc r f now = cookiePhase (appendIp doc k r.remoteIp) k
        { pc with ips := pc.ips ++ [r.remoteIp] } r f now) ∨
    (∃ n k pc, r.name = some n ∧ resolveName n doc = some (k, pc) ∧ k ≠ "" ∧
      r.remoteIp ∈ pc.ips ∧
      page doc r f now = cookiePhase doc k pc r f now) := by
  cases hn : r.name with
  | none => exact Or.inl ⟨rfl, by simp [page, hn]⟩
  | some n =>
    cases hres : resolveName n doc with
    | none => exact Or.inr (Or.inl ⟨n, rfl, hres, by simp [page, hn, hres]⟩)
    | some kvp =>
      obtain ⟨k, pc⟩ := kvp
      by_cases hk : k = ""
      · subst hk
        exact Or.inr (Or.inr (Or.inl ⟨n, pc, rfl, hres, by simp [page, hn, hres]⟩))
      · have hkb : (k == "") = false := beq_eq_false_iff_ne.mpr hk
        by_cases hip : r.remoteIp ∈ pc.ips
        · exact Or.inr (Or.inr (Or.inr (Or.inr (Or.inr (Or.inr
            ⟨n, k, pc, rfl, hres, hk, hip, by simp [page, hn, hres, hkb, hip]⟩)))))
        · by_cases hel : ipUsedElsewhere r.remoteIp k doc
          · exact Or.inr (Or.inr (Or.inr (Or.inl ⟨n, k, pc, rfl, hres, hk,
              hip, hel, by simp [page, hn, hres, hkb, hip, hel]⟩)))
          · by_cases hm : pc.max_ips ≤ pc.ips.length
            · exact Or.inr (Or.inr (Or.inr (Or.inr (Or.inl ⟨n, k, pc, rfl, hres,
                hk, hip, Bool.eq_false_iff.mpr hel, hm,
                by simp [page, hn, hres, hkb, hip, hel, hm]⟩))))
            · exact Or.inr (Or.inr (Or.inr (Or.inr (Or.inr (Or.inl ⟨n, k, pc, rfl,
                hres, hk, hip, Bool.eq_false_iff.mpr hel, Nat.lt_of_not_le hm,
                by simp [page, hn, hres, hkb, hip, hel, hm]⟩)))))

theorem nameMatches_iff {n : String} {kv : String × PageConfig} :
    nameMatches n kv = true ↔ (strLower n = kv.1 ∨ strLower n ∈ kv.2.aliases) := by
  simp [nameMatches]

theorem ipUsedElsewhere_false_iff {ip k : String} {doc : Config} :
    ipUsedElsewhere ip k doc = false ↔ ∀ kv ∈ doc, kv.1 ≠ k → ip ∉ kv.2.ips := by
  simp [ipUsedElsewhere, not_and]

theorem cookieUsedElsewhere_false_iff {c k : String} {doc : Config} :
    cookieUsedElsewhere c k doc = false ↔ ∀ kv ∈ doc, kv.1 ≠ k → c ∉ kv.2.cookies := by
  simp [cookieUsedElsewhere, not_and]

theorem cookieUsedElsewhere_true_iff {c k : String} {doc : Config} :
    cookieUsedElsewhere c k doc = true ↔ ∃ kv ∈ doc, kv.1 ≠ k ∧ c ∈ kv.2.cookies := by
  simp [cookieUsedElsewhere]

theorem mem_appendIp {doc : Config} {k ip : String} {kv' : String × PageConfig}
    (h : kv' ∈ appendIp doc k ip) :
    ∃ kv ∈ doc, kv'.1 = kv.1 ∧ kv'.2.cookies = kv.2.cookies ∧
      kv'.2.max_ips = kv.2.max_ips ∧ kv'.2.max_cookies = kv.2.max_cookies ∧
      (kv'.2.ips = kv.2.ips ∨ (kv.1 = k ∧ kv'.2.ips = kv.2.ips ++ [ip])) := by
  rcases List.mem_map.mp h with ⟨kv, hkv, rfl⟩
  by_cases hk : kv.1 = k
  · have h1 : (kv.1 == k) = true := beq_iff_eq.mpr hk
    exact ⟨kv, hkv, by simp [h1, hk]⟩
  · have h1 : (kv.1 == k) = false := beq_eq_false_iff_ne.mpr hk
    exact ⟨kv, hkv, by simp [h1]⟩

theorem mem_appendCookie {doc : Config} {k c : String} {kv' : String × PageConfig}
    (h : kv' ∈ appendCookie doc k c) :
    ∃ kv ∈ doc, kv'.1 = kv.1 ∧ kv'.2.ips = kv.2.ips ∧
      kv'.2.max_ips = kv.2.max_ips ∧ kv'.2.max_cookies = kv.2.max_cookies ∧
      (kv'.2.cookies = kv.2.cookies ∨ (kv.1 = k ∧ kv'.2.cookies = kv.2.cookies ++ [c])) := by
  rcases List.mem_map.mp h with ⟨kv, hkv, rfl⟩
  by_cases hk : kv.1 = k
  · have h1 : (kv.1 == k) = true := beq_iff_eq.mpr hk
    exact ⟨kv, hkv, by simp [h1, hk]⟩
  · have h1 : (kv.1 == k) = false := beq_eq_false_iff_ne.mpr hk
    exact ⟨kv, hkv, by simp [h1]⟩

theorem nodup_key_entry {doc : Config} (hnd : (keysOf doc).Nodup)
    {k : String} {v1 : PageConfig} (h1 : (k, v1) ∈ doc) :
    ∀ {kv : String × PageConfig}, kv ∈ doc → kv.1 = k → kv.2 = v1 := by
  induction doc with
  | nil => cases h1
  | cons hd t ih =>
    rw [show keysOf (hd :: t) = hd.1 :: keysOf t from rfl, List.nodup_cons] at hnd
    intro kv h2 hk
    rcases List.mem_cons.mp h1 with he1 | ht1
    · rcases List.mem_cons.mp h2 with he2 | ht2
      · rw [he2, ← he1]
      · exfalso
        apply hnd.1
        have : kv.1 ∈ keysOf t := List.mem_map_of_mem (fun kv => kv.1) ht2
        rw [hk] at this
        rw [← he1]
        exact this
    · rcases List.mem_cons.mp h2 with he2 | ht2
      · exfalso
        apply hnd.1
        have : k ∈ keysOf t := by
          have := List.mem_map_of_mem (fun kv => kv.1) ht1
          exact this
        rw [he2] at hk
        rw [hk]
        exact this
      · exact ih hnd.2 ht1 ht2 hk

theorem ipsProj_fst (doc : Config) : (ipsProj doc).map Prod.fst = keysOf doc := by
  rw [ipsProj, List.map_map]
  rfl

theorem cookiesProj_fst (doc : Config) : (cookiesProj doc).map Prod.fst = keysOf doc := by
  rw [cookiesProj, List.map_map]
  rfl

theorem appendIp_ipsUnique {doc : Config} {k ip : String}
    (hnd : (keysOf doc).Nodup) (hu : ipsUnique doc = true)
    (hfree : ∀ kv ∈ doc, kv.1 ≠ k → ip ∉ kv.2.ips) :
    ipsUnique (appendIp doc k ip) = true := by
  rw [ipsUnique, ipsProj_appendIp]
  apply bump_pairwiseDisjoint
  · rw [ipsProj_fst]; exact hnd
  · exact hu
  · intro kv hkv hne
    rcases List.mem_map.mp hkv with ⟨kv0, hkv0, rfl⟩
    exact hfree kv0 hkv0 hne

theorem appendCookie_cookiesUnique {doc : Config} {k c : String}
    (hnd : (keysOf doc).Nodup) (hu : cookiesUnique doc = true)
    (hfree : ∀ kv ∈ doc, kv.1 ≠ k → c ∉ kv.2.cookies) :
    cookiesUnique (appendCookie doc k c) = true := by
  rw [cookiesUnique, cookiesProj_appendCookie]
  apply bump_pairwiseDisjoint
  · rw [cookiesProj_fst]; exact hnd
  · exact hu
  · intro kv hkv hne
    rcases List.mem_map.mp hkv with ⟨kv0, hkv0, rfl⟩
    exact hfree kv0 hkv0 hne

theorem cookiePhase_doc_eq (doc : Config) (k : String) (pc : PageConfig)
    (r : Request) (f : String) (now : DateTime) :
    (cookiePhase doc k pc r f now).doc = doc ∨
    (cookiePhase doc k pc r f now).doc = appendCookie doc k f := by
  rcases cookiePhase_cases doc k pc r f now with
    ⟨_, _, hp⟩ | ⟨_, _, _, hp⟩ | ⟨_, _, _, hp⟩ | ⟨_, _, hp⟩ | ⟨_, _, hp⟩ <;>
    rw [hp]
  · exact Or.inl rfl
  · exact Or.inl rfl
  · exact Or.inl rfl
  · exact Or.inl rfl
  · exact Or.inr rfl

theorem cookiePhase_ipsUnique {doc : Config} {k : String} {pc : PageConfig}
    {r : Request} {f : String} {now : DateTime} (hip : ipsUnique doc = true) :
    ipsUnique (cookiePhase doc k pc r f now).doc = true := by
  rcases cookiePhase_doc_eq doc k pc r f now with hd | hd <;> rw [hd]
  · exact hip
  · rw [ipsUnique_appendCookie]
    exact hip

theorem cookiePhase_cookiesUnique {doc : Config} {k : String} {pc : PageConfig}
    {r : Request} {f : String} {now : DateTime}
    (hnd : (keysOf doc).Nodup) (hck : cookiesUnique doc = true)
    (hf : ∀ kv ∈ doc, f ∉ kv.2.cookies) :
    cookiesUnique (cookiePhase doc k pc r f now).doc = true := by
  rcases cookiePhase_doc_eq doc k pc r f now with hd | hd <;> rw [hd]
  · exact hck
  · exact appendCookie_cookiesUnique hnd hck (fun kv h _ => hf kv h)

/-- Spec §3 capacity invariant for IPs: every page currently holds at most
`max_ips` addresses. -/
def ipsBound (doc : Config) : Prop :=
  ∀ kv ∈ doc, kv.2.ips.length ≤ kv.2.max_ips

theorem ipsBound_appendCookie {doc : Config} {k c : String}
    (hb : ipsBound doc) : ipsBound (appendCookie doc k c) := by
  intro kv' h
  rcases mem_appendCookie h with ⟨kv, hkv, _, hips, hmax, _, _⟩
  rw [hips, hmax]
  exact hb kv hkv

theorem ipsBound_appendIp {doc : Config} {k ip : String} {pc : PageConfig}
    (hnd : (keysOf doc).Nodup) (hmem : (k, pc) ∈ doc)
    (hcap : pc.ips.length < pc.max_ips) (hb : ipsBound doc) :
    ipsBound (appendIp doc k ip) := by
  intro kv' h
  rcases mem_appendIp h with ⟨kv, hkv, _, _, hmax, _, hips⟩
  rw [hmax]
  rcases hips with hsame | ⟨hk, happ⟩
  · rw [hsame]
    exact hb kv hkv
  · have hv : kv.2 = pc := nodup_key_entry hnd hmem hkv hk
    rw [happ, hv, List.length_append, List.length_singleton]
    rw [hv] at *
    omega

theorem cookiePhase_ipsBound {doc : Config} {k : String} {pc : PageConfig}
    {r : Request} {f : String} {now : DateTime} (hb : ipsBound doc) :
    ipsBound (cookiePhase doc k pc r f now).doc := by
  rcases cookiePhase_doc_eq doc k pc r f now with hd | hd <;> rw [hd]
  · exact hb
  · exact ipsBound_appendCookie hb

theorem page_served_expiry {doc : Config} {r : Request} {f : String}
    {now : DateTime} {p c : String} {e : DateTime} {d : Config}
    (h : page doc r f now = Outcome.served p c e d) : e = cookieExpiry now := by
  rcases page_cases doc r f now with
    ⟨_, hp⟩ | ⟨_, _, _, hp⟩ | ⟨_, _, _, _, hp⟩ | ⟨_, _, _, _, _, _, _, _, hp⟩ |
    ⟨_, _, _, _, _, _, _, _, _, hp⟩ | ⟨n, k, pc, _, _, _, _, _, _, hp⟩ |
    ⟨n, k, pc, _, _, _, _, hp⟩
  · rw [hp] at h; simp at h
  · rw [hp] at h; simp at h
  · rw [hp] at h; simp at h
  · rw [hp] at h; simp at h
  · rw [hp] at h; simp at h
  · rw [hp] at h
    rcases cookiePhase_cases (appendIp doc k r.remoteIp) k
        { pc with ips := pc.ips ++ [r.remoteIp] } r f now with
      ⟨_, _, hq⟩ | ⟨_, _, _, hq⟩ | ⟨_, _, _, hq⟩ | ⟨_, _, hq⟩ | ⟨_, _, hq⟩ <;>
      rw [hq] at h <;> simp at h <;> exact h.2.2.1.symm
  · rw [hp] at h
    rcases cookiePhase_cases doc k pc r f now with
      ⟨_, _, hq⟩ | ⟨_, _, _, hq⟩ | ⟨_, _, _, hq⟩ | ⟨_, _, hq⟩ | ⟨_, _, hq⟩ <;>
      rw [hq] at h <;> simp at h <;> exact h.2.2.1.symm

theorem page_resolved_forbidden {doc : Config} {r : Request} {f : String}
    {now : DateTime} {n : String} {kvp : String × PageConfig} {v : Nat} {d : Config}
    (hn : r.name = some n) (hres : resolveName n doc = some kvp)
    (hkne : kvp.1 ≠ "")
    (h : page doc r f now = Outcome.forbidden v d) :
    v = ForbiddenReason.IP_ALREADY_USED ∨ v = ForbiddenReason.MAX_IPS_REACHED ∨
    v = ForbiddenReason.COOKIE_ALREADY_USED ∨ v = ForbiddenReason.INVALID_COOKIE := by
  rcases page_cases doc r f now with
    ⟨hn2, hp⟩ | ⟨n2, hn2, hres2, hp⟩ | ⟨n2, pc2, hn2, hres2, hp⟩ |
    ⟨n2, k, pc, hn2, hres2, _, _, _, hp⟩ |
    ⟨n2, k, pc, hn2, hres2, _, _, _, _, hp⟩ |
    ⟨n2, k, pc, hn2, hres2, _, _, _, _, hp⟩ | ⟨n2, k, pc, hn2, hres2, _, _, hp⟩
  · rw [hn] at hn2; cases hn2
  · rw [hn] at hn2
    cases hn2
    rw [hres] at hres2
    cases hres2
  · rw [hn] at hn2
    cases hn2
    rw [hres] at hres2
    injection hres2 with hres2
    exact absurd (congrArg Prod.fst hres2) hkne
  · rw [hp] at h
    cases h
    exact Or.inl rfl
  · rw [hp] at h
    cases h
    exact Or.inr (Or.inl rfl)
  · rw [hp] at h
    rcases cookiePhase_cases (appendIp doc k r.remoteIp) k
        { pc with ips := pc.ips ++ [r.remoteIp] } r f now with
      ⟨_, _, hq⟩ | ⟨_, _, _, hq⟩ | ⟨_, _, _, hq⟩ | ⟨_, _, hq⟩ | ⟨_, _, hq⟩ <;>
      rw [hq] at h
    · cases h; exact Or.inr (Or.inr (Or.inl rfl))
    · cases h; exact Or.inr (Or.inr (Or.inr rfl))
    · simp at h
    · cases h; exact Or.inr (Or.inr (Or.inr rfl))
    · simp at h
  · rw [hp] at h
    rcases cookiePhase_cases doc k pc r f now with
      ⟨_, _, hq⟩ | ⟨_, _, _, hq⟩ | ⟨_, _, _, hq⟩ | ⟨_, _, hq⟩ | ⟨_, _, hq⟩ <;>
      rw [hq] at h
    · cases h; exact Or.inr (Or.inr (Or.inl rfl))
    · cases h; exact Or.inr (Or.inr (Or.inr rfl))
    · simp at h
    · cases h; exact Or.inr (Or.inr (Or.inr rfl))
    · simp at h

/-! Claim theorems. -/

/-- Claim C2, evaluated at the failing input.  The source declares seven
members but assigns `INVALID_COOKIE` and `MAX_COOKIES_REACHED` the same
value 6, so the declared values are not pairwise distinct; under Python
`Enum` aliasing the `.name` emitted in the diagnostic of a max-cookies
rejection is `INVALID_COOKIE`, so the two rejection outcomes are not
distinguishable in the emitted diagnostic. -/
theorem c2_enum_alias_collision :
    ForbiddenReason.declaredMembers.length = 7 ∧
    ForbiddenReason.INVALID_COOKIE = ForbiddenReason.MAX_COOKIES_REACHED ∧
    ¬ (ForbiddenReason.declaredMembers.map (fun m => m.2)).Nodup ∧
    reasonName ForbiddenReason.MAX_COOKIES_REACHED = "INVALID_COOKIE" ∧
    page [("alpha", ⟨[], "p", [], 1, [], 0⟩)] ⟨some "alpha", "1.2.3.4", none⟩ "fr" ⟨2026, 0⟩
      = Outcome.forbidden ForbiddenReason.MAX_COOKIES_REACHED
          [("alpha", ⟨[], "p", ["1.2.3.4"], 1, [], 0⟩)] ∧
    (mkDiagnostic [("alpha", ⟨[], "p", ["1.2.3.4"], 1, [], 0⟩)]
        ⟨some "alpha", "1.2.3.4", none⟩ ForbiddenReason.MAX_COOKIES_REACHED).reason
      = "INVALID_COOKIE" := by
  refine ⟨rfl, rfl, by decide, rfl, by decide, rfl⟩

/-- Claim C1 counterexample: a request that is rejected with
`InvalidCookie` nonetheless persists a mutated document — the step-3c IP
append happened before the cookie check, so the persisted document differs
from the loaded one. -/
theorem c1_counterexample :
    page [("alpha", ⟨[], "p", [], 1, [], 1⟩)] ⟨some "alpha", "1.2.3.4", some "zzz"⟩
        "fr" ⟨2026, 0⟩
      = Outcome.forbidden ForbiddenReason.INVALID_COOKIE
          [("alpha", ⟨[], "p", ["1.2.3.4"], 1, [], 1⟩)] ∧
    ([("alpha", (⟨[], "p", ["1.2.3.4"], 1, [], 1⟩ : PageConfig))] : Config)
      ≠ [("alpha", ⟨[], "p", [], 1, [], 1⟩)] := by
  refine ⟨by decide, by decide⟩

/-- Claim C1 as amended: rejections `NoName`, `NoPage`, `IpAlreadyUsed`
and `MaxIpsReached` persist the document unchanged; a cookie-phase
rejection persists either the loaded document or the loaded document with
the step-3c IP append to the resolved page already applied; no rejection
ever mutates any `cookies` list. -/
theorem c1_rejection_mutation (doc : Config) (r : Request) (f : String)
    (now : DateTime) (v : Nat) (d : Config)
    (h : page doc r f now = Outcome.forbidden v d) :
    cookiesProj d = cookiesProj doc ∧
    ((v = ForbiddenReason.NO_NAME ∨ v = ForbiddenReason.NO_PAGE ∨
        v = ForbiddenReason.IP_ALREADY_USED ∨ v = ForbiddenReason.MAX_IPS_REACHED) →
      d = doc) ∧
    (d = doc ∨ ∃ k pc, resolveName (r.name.getD "") doc = some (k, pc) ∧
      d = appendIp doc k r.remoteIp) := by
  rcases page_cases doc r f now with
    ⟨hn, hp⟩ | ⟨n, hn, hres, hp⟩ | ⟨n, pc, hn, hres, hp⟩ |
    ⟨n, k, pc, hn, hres, _, _, _, hp⟩ | ⟨n, k, pc, hn, hres, _, _, _, _, hp⟩ |
    ⟨n, k, pc, hn, hres, _, _, _, _, hp⟩ | ⟨n, k, pc, hn, hres, _, _, hp⟩
  · rw [hp] at h
    cases h
    exact ⟨rfl, fun _ => rfl, Or.inl rfl⟩
  · rw [hp] at h
    cases h
    exact ⟨rfl, fun _ => rfl, Or.inl rfl⟩
  · rw [hp] at h
    cases h
    exact ⟨rfl, fun _ => rfl, Or.inl rfl⟩
  · rw [hp] at h
    cases h
    exact ⟨rfl, fun _ => rfl, Or.inl rfl⟩
  · rw [hp] at h
    cases h
    exact ⟨rfl, fun _ => rfl, Or.inl rfl⟩
  · rw [hp] at h
    rcases cookiePhase_cases (appendIp doc k r.remoteIp) k
        { pc with ips := pc.ips ++ [r.remoteIp] } r f now with
      ⟨_, _, hq⟩ | ⟨_, _, _, hq⟩ | ⟨_, _, _, hq⟩ | ⟨_, _, hq⟩ | ⟨_, _, hq⟩ <;>
      rw [hq] at h
    · cases h
      refine ⟨cookiesProj_appendIp doc k r.remoteIp, ?_, ?_⟩
      · intro hv
        exact absurd hv (by decide)
      · exact Or.inr ⟨k, pc, by rw [hn]; exact hres, rfl⟩
    · cases h
      refine ⟨cookiesProj_appendIp doc k r.remoteIp, ?_, ?_⟩
      · intro hv
        exact absurd hv (by decide)
      · exact Or.inr ⟨k, pc, by rw [hn]; exact hres, rfl⟩
    · simp at h
    · cases h
      refine ⟨cookiesProj_appendIp doc k r.remoteIp, ?_, ?_⟩
      · intro hv
        exact absurd hv (by decide)
      · exact Or.inr ⟨k, pc, by rw [hn]; exact hres, rfl⟩
    · simp at h
  · rw [hp] at h
    rcases cookiePhase_cases doc k pc r f now with
      ⟨_, _, hq⟩ | ⟨_, _, _, hq⟩ | ⟨_, _, _, hq⟩ | ⟨_, _, hq⟩ | ⟨_, _, hq⟩ <;>
      rw [hq] at h
    · cases h
      exact ⟨rfl, fun _ => rfl, Or.inl rfl⟩
    · cases h
      exact ⟨rfl, fun _ => rfl, Or.inl rfl⟩
    · simp at h
    · cases h
      exact ⟨rfl, fun _ => rfl, Or.inl rfl⟩
    · simp at h

/-- Claim C1 witness: the amended theorem applied at the counterexample
input — the `InvalidCookie` rejection that appended an IP left every
`cookies` list untouched. -/
theorem c1_witness :
    cookiesProj [("alpha", ⟨[], "p", ["1.2.3.4"], 1, [], 1⟩)]
      = cookiesProj [("alpha", ⟨[], "p", [], 1, [], 1⟩)] := by
  have h : page [("alpha", ⟨[], "p", [], 1, [], 1⟩)]
      ⟨some "alpha", "1.2.3.4", some "zzz"⟩ "fr" ⟨2026, 0⟩
      = Outcome.forbidden ForbiddenReason.INVALID_COOKIE
        [("alpha", ⟨[], "p", ["1.2.3.4"], 1, [], 1⟩)] := by decide
  exact (c1_rejection_mutation _ _ _ _ _ _ h).1

/-- Claim C3 counterexample: with two pages both matching the requested
name, resolution selects the second (last) matching entry, not the first
— the served content is page `b`'s, and the request's IP and new cookie
are bound to `b`. -/
theorem c3_counterexample :
    resolveName "x" [("a", ⟨["x"], "pageA", [], 1, [], 1⟩), ("b", ⟨["x"], "pageB", [], 1, [], 1⟩)]
      = some ("b", ⟨["x"], "pageB", [], 1, [], 1⟩) ∧
    nameMatches "x" ("a", ⟨["x"], "pageA", [], 1, [], 1⟩) = true ∧
    page [("a", ⟨["x"], "pageA", [], 1, [], 1⟩), ("b", ⟨["x"], "pageB", [], 1, [], 1⟩)]
        ⟨some "x", "1.2.3.4", none⟩ "fr" ⟨2026, 0⟩
      = Outcome.served "pageB" "fr" ⟨2026, 0⟩
          [("a", ⟨["x"], "pageA", [], 1, [], 1⟩),
           ("b", ⟨["x"], "pageB", ["1.2.3.4"], 1, ["fr"], 1⟩)] := by
  refine ⟨by decide, by decide, by decide⟩

/-- Claim C3 as amended: when several `PageConfig`s match the requested
name, the resolution loop (which has no `break` and keeps overwriting its
accumulator) selects the last matching entry in document iteration order
— equivalently, the first match of the reversed document. -/
theorem c3_last_match_wins (n : String) (doc : Config) :
    resolveName n doc = doc.reverse.find? (nameMatches n) :=
  resolveName_eq_findRev n doc

/-- Claim C4 counterexample: a page configured with the uppercase name
`"Alpha"` is requested with the byte-identical name `"Alpha"` (which in
particular matches it up to letter case), yet the request is rejected
`NoPage`: the code lowercases only the requested name and compares it for
exact equality against the configured name, so a configured name
containing an uppercase letter never matches. -/
theorem c4_counterexample :
    page [("Alpha", ⟨[], "p", [], 1, [], 1⟩)] ⟨some "Alpha", "1.2.3.4", none⟩
        "fr" ⟨2026, 0⟩
      = Outcome.forbidden ForbiddenReason.NO_PAGE [("Alpha", ⟨[], "p", [], 1, [], 1⟩)] ∧
    strLower "Alpha" = "alpha" := by
  refine ⟨by decide, by decide⟩

/-- Claim C4 as amended: resolution is case-insensitive on the request
side only.  For an ASCII requested name (on which the character-wise
lowercase model coincides with Python's `str.lower()`), the request
escapes the `NoPage` rejection exactly when the scan finds a match and the
winning (last) matching entry's configured key is nonempty — line 115's
truthiness test also rejects a matched page keyed by the empty string.
In particular a request differing from a configured lowercase name or
alias only in ASCII letter case resolves, while a configured name or alias
containing an uppercase letter never matches any request.  The ASCII
hypothesis only scopes the statement to the inputs on which `strLower`
agrees with Python's `str.lower()`; the model-level proof does not need
it, which is why Lean reports it unused. -/
theorem c4_request_case_insensitive (doc : Config) (r : Request) (f : String)
    (now : DateTime) (n : String) (hn : r.name = some n)
    (hascii : ∀ ch ∈ n.data, ch.toNat < 128) :
    (∀ kv ∈ doc, nameMatches n kv = true ↔
      (strLower n = kv.1 ∨ strLower n ∈ kv.2.aliases)) ∧
    ((∃ k pc, resolveName n doc = some (k, pc) ∧ k ≠ "") ↔
      ∀ d, page doc r f now ≠ Outcome.forbidden ForbiddenReason.NO_PAGE d) := by
  refine ⟨fun kv _ => nameMatches_iff, ?_, ?_⟩
  · rintro ⟨k, pc, hres, hkne⟩ d hpage
    have hv := page_resolved_forbidden hn hres hkne hpage
    rcases hv with h | h | h | h <;> exact absurd h (by decide)
  · intro hall
    cases hres : resolveName n doc with
    | none =>
      exfalso
      exact hall doc (by simp [page, hn, hres])
    | some kvp =>
      obtain ⟨k, pc⟩ := kvp
      refine ⟨k, pc, rfl, ?_⟩
      intro hk
      subst hk
      exact hall doc (by simp [page, hn, hres])

/-- Claim C4 witness: the amended theorem applied to a request whose name
`"AL"` differs only in ASCII letter case from the configured alias `"al"`;
the request is not rejected `NoPage`. -/
theorem c4_witness :
    page [("alpha", ⟨["al"], "p", [], 1, [], 1⟩)] ⟨some "AL", "1.2.3.4", none⟩
        "fr" ⟨2026, 0⟩
      ≠ Outcome.forbidden ForbiddenReason.NO_PAGE
          [("alpha", ⟨["al"], "p", [], 1, [], 1⟩)] := by
  exact (c4_request_case_insensitive [("alpha", ⟨["al"], "p", [], 1, [], 1⟩)]
      ⟨some "AL", "1.2.3.4", none⟩ "fr" ⟨2026, 0⟩ "AL" rfl (by decide)).2.mp
    ⟨"alpha", ⟨["al"], "p", [], 1, [], 1⟩, by decide, by decide⟩ _

/-- Claim C5 counterexample: both uniqueness invariants hold on the loaded
document, but the randomly generated cookie value collides with a cookie
already bound to another page; the admission appends it without any
collision check and the resulting document violates cookie uniqueness. -/
theorem c5_counterexample :
    ipsUnique [("alpha", ⟨[], "pa", [], 1, [], 1⟩),
               ("beta", ⟨[], "pb", [], 1, ["ccc"], 1⟩)] = true ∧
    cookiesUnique [("alpha", ⟨[], "pa", [], 1, [], 1⟩),
                   ("beta", ⟨[], "pb", [], 1, ["ccc"], 1⟩)] = true ∧
    page [("alpha", ⟨[], "pa", [], 1, [], 1⟩), ("beta", ⟨[], "pb", [], 1, ["ccc"], 1⟩)]
        ⟨some "alpha", "1.2.3.4", none⟩ "ccc" ⟨2026, 0⟩
      = Outcome.served "pa" "ccc" ⟨2026, 0⟩
          [("alpha", ⟨[], "pa", ["1.2.3.4"], 1, ["ccc"], 1⟩),
           ("beta", ⟨[], "pb", [], 1, ["ccc"], 1⟩)] ∧
    cookiesUnique [("alpha", ⟨[], "pa", ["1.2.3.4"], 1, ["ccc"], 1⟩),
                   ("beta", ⟨[], "pb", [], 1, ["ccc"], 1⟩)] = false := by
  refine ⟨by decide, by decide, by decide, by decide⟩

/-- Claim C5 as amended: on a document with unique page keys, IP
cross-page uniqueness is preserved by every request unconditionally;
cookie cross-page uniqueness is preserved provided the freshly generated
cookie value does not already occur in any page's `cookies` list (the code
performs no collision check on the random value). -/
theorem c5_uniqueness_preservation (doc : Config) (r : Request) (f : String)
    (now : DateTime) (hnd : (keysOf doc).Nodup) :
    (ipsUnique doc = true → ipsUnique (page doc r f now).doc = true) ∧
    (cookiesUnique doc = true → (∀ kv ∈ doc, f ∉ kv.2.cookies) →
      cookiesUnique (page doc r f now).doc = true) := by
  constructor
  · intro hip
    rcases page_cases doc r f now with
      ⟨_, hp⟩ | ⟨n, _, _, hp⟩ | ⟨n, pc, _, _, hp⟩ |
      ⟨n, k, pc, _, _, _, _, _, hp⟩ | ⟨n, k, pc, _, _, _, _, _, _, hp⟩ |
      ⟨n, k, pc, hn, hres, hk, hipm, hel, hcap, hp⟩ |
      ⟨n, k, pc, hn, hres, hk, hipm, hp⟩ <;> rw [hp]
    · exact hip
    · exact hip
    · exact hip
    · exact hip
    · exact hip
    · exact cookiePhase_ipsUnique
        (appendIp_ipsUnique hnd hip (ipUsedElsewhere_false_iff.mp hel))
    · exact cookiePhase_ipsUnique hip
  · intro hck hf
    rcases page_cases doc r f now with
      ⟨_, hp⟩ | ⟨n, _, _, hp⟩ | ⟨n, pc, _, _, hp⟩ |
      ⟨n, k, pc, _, _, _, _, _, hp⟩ | ⟨n, k, pc, _, _, _, _, _, _, hp⟩ |
      ⟨n, k, pc, hn, hres, hk, hipm, hel, hcap, hp⟩ |
      ⟨n, k, pc, hn, hres, hk, hipm, hp⟩ <;> rw [hp]
    · exact hck
    · exact hck
    · exact hck
    · exact hck
    · exact hck
    · have hnd1 : (keysOf (appendIp doc k r.remoteIp)).Nodup := by
        rw [keysOf_appendIp]; exact hnd
      have hck1 : cookiesUnique (appendIp doc k r.remoteIp) = true := by
        rw [cookiesUnique_appendIp]; exact hck
      have hf1 : ∀ kv ∈ appendIp doc k r.remoteIp, f ∉ kv.2.cookies := by
        intro kv h
        rcases mem_appendIp h with ⟨kv0, h0, _, hcook, _⟩
        rw [hcook]
        exact hf kv0 h0
      exact cookiePhase_cookiesUnique hnd1 hck1 hf1
    · exact cookiePhase_cookiesUnique hnd hck hf

/-- Claim C5 witness: the amended theorem applied to a concrete admission
with a fresh generated cookie; both uniqueness invariants hold on the
persisted document. -/
theorem c5_witness :
    ipsUnique (page [("alpha", ⟨[], "pa", [], 1, [], 1⟩),
        ("beta", ⟨[], "pb", [], 1, ["ccc"], 1⟩)]
        ⟨some "alpha", "1.2.3.4", none⟩ "fff" ⟨2026, 0⟩).doc = true ∧
    cookiesUnique (page [("alpha", ⟨[], "pa", [], 1, [], 1⟩),
        ("beta", ⟨[], "pb", [], 1, ["ccc"], 1⟩)]
        ⟨some "alpha", "1.2.3.4", none⟩ "fff" ⟨2026, 0⟩).doc = true := by
  have h := c5_uniqueness_preservation
    [("alpha", ⟨[], "pa", [], 1, [], 1⟩), ("beta", ⟨[], "pb", [], 1, ["ccc"], 1⟩)]
    ⟨some "alpha", "1.2.3.4", none⟩ "fff" ⟨2026, 0⟩ (by decide)
  exact ⟨h.1 (by decide), h.2 (by decide) (by decide)⟩

/-- Claim C6 counterexample: the claim fails at a page whose configured
key is the empty string.  The page's alias `"foo"` matches, its `ips`
list is exactly at `max_ips`, and the request comes from the
already-bound IP with its valid cookie — the claim says such a request
continues to be served, but line 115's truthiness test (`if not
page_item:`) rejects the empty key with `NO_PAGE`. -/
theorem c6_counterexample :
    resolveName "foo" [("", ⟨["foo"], "p", ["1.2.3.4"], 1, ["c"], 1⟩)]
      = some ("", ⟨["foo"], "p", ["1.2.3.4"], 1, ["c"], 1⟩) ∧
    page [("", ⟨["foo"], "p", ["1.2.3.4"], 1, ["c"], 1⟩)]
        ⟨some "foo", "1.2.3.4", some "c"⟩ "fr" ⟨2026, 0⟩
      = Outcome.forbidden ForbiddenReason.NO_PAGE
          [("", ⟨["foo"], "p", ["1.2.3.4"], 1, ["c"], 1⟩)] := by
  refine ⟨by decide, by decide⟩

/-- Claim C6 as amended: IP capacity is enforced before insertion.  On a
document with unique keys: (1) if every page holds at most `max_ips`
addresses before the request, the same holds after it; (2) for a request
resolving to a nonempty-keyed page whose `ips` list is exactly at
`max_ips`, a request from an IP not in that list is rejected
(`IpAlreadyUsed` or `MaxIpsReached`) with the document unchanged — the IP
is never appended — while a request from an already-bound IP is never
rejected for an IP-related reason (any rejection it still receives
carries a cookie-phase reason value, 5 or 6); (3) a page keyed by the
empty string is never served at all: any request resolving to it is
rejected `NoPage` before the IP phase, with the document unchanged. -/
theorem c6_ip_capacity (doc : Config) (r : Request) (f : String) (now : DateTime)
    (hnd : (keysOf doc).Nodup) :
    (ipsBound doc → ipsBound (page doc r f now).doc) ∧
    (∀ n k pc, r.name = some n → resolveName n doc = some (k, pc) → k ≠ "" →
      pc.ips.length = pc.max_ips →
      ((r.remoteIp ∉ pc.ips →
          page doc r f now = Outcome.forbidden ForbiddenReason.IP_ALREADY_USED doc ∨
          page doc r f now = Outcome.forbidden ForbiddenReason.MAX_IPS_REACHED doc) ∧
       (r.remoteIp ∈ pc.ips →
          ∀ v d, page doc r f now = Outcome.forbidden v d →
            v = ForbiddenReason.COOKIE_ALREADY_USED ∨
            v = ForbiddenReason.INVALID_COOKIE))) ∧
    (∀ n pc, r.name = some n → resolveName n doc = some ("", pc) →
      page doc r f now = Outcome.forbidden ForbiddenReason.NO_PAGE doc) := by
  refine ⟨?_, ?_, ?_⟩
  · intro hb
    rcases page_cases doc r f now with
      ⟨_, hp⟩ | ⟨_, _, _, hp⟩ | ⟨_, _, _, _, hp⟩ |
      ⟨_, _, _, _, _, _, _, _, hp⟩ | ⟨_, _, _, _, _, _, _, _, _, hp⟩ |
      ⟨n, k, pc, hn, hres, _, _, _, hcap, hp⟩ |
      ⟨n, k, pc, _, _, _, _, hp⟩ <;> rw [hp]
    · exact hb
    · exact hb
    · exact hb
    · exact hb
    · exact hb
    · exact cookiePhase_ipsBound (ipsBound_appendIp hnd (resolveName_mem hres).1 hcap hb)
    · exact cookiePhase_ipsBound hb
  · intro n k pc hn hres hkne hlen
    constructor
    · intro hnotin
      rcases page_cases doc r f now with
        ⟨hn2, hp⟩ | ⟨n2, hn2, hres2, hp⟩ | ⟨n2, pc2, hn2, hres2, hp⟩ |
        ⟨n2, k2, pc2, hn2, hres2, hk2, hip2, hel2, hp⟩ |
        ⟨n2, k2, pc2, hn2, hres2, hk2, hip2, hel2, hm2, hp⟩ |
        ⟨n2, k2, pc2, hn2, hres2, hk2, hip2, hel2, hcap2, hp⟩ |
        ⟨n2, k2, pc2, hn2, hres2, hk2, hip2, hp⟩
      · rw [hn] at hn2; cases hn2
      · rw [hn] at hn2
        cases hn2
        rw [hres] at hres2
        cases hres2
      · rw [hn] at hn2
        cases hn2
        rw [hres] at hres2
        injection hres2 with hres2
        exact absurd (congrArg Prod.fst hres2) hkne
      · exact Or.inl hp
      · exact Or.inr hp
      · rw [hn] at hn2
        cases hn2
        rw [hres] at hres2
        injection hres2 with hres2
        injection hres2 with he1 he2
        subst he1
        subst he2
        exact absurd hcap2 (by omega)
      · rw [hn] at hn2
        cases hn2
        rw [hres] at hres2
        injection hres2 with hres2
        injection hres2 with he1 he2
        subst he1
        subst he2
        exact absurd hip2 hnotin
    · intro hin v d hpage
      rcases page_cases doc r f now with
        ⟨hn2, hp⟩ | ⟨n2, hn2, hres2, hp⟩ | ⟨n2, pc2, hn2, hres2, hp⟩ |
        ⟨n2, k2, pc2, hn2, hres2, hk2, hip2, hel2, hp⟩ |
        ⟨n2, k2, pc2, hn2, hres2, hk2, hip2, hel2, hm2, hp⟩ |
        ⟨n2, k2, pc2, hn2, hres2, hk2, hip2, hel2, hcap2, hp⟩ |
        ⟨n2, k2, pc2, hn2, hres2, hk2, hip2, hp⟩
      · rw [hn] at hn2; cases hn2
      · rw [hn] at hn2
        cases hn2
        rw [hres] at hres2
        cases hres2
      · rw [hn] at hn2
        cases hn2
        rw [hres] at hres2
        injection hres2 with hres2
        exact absurd (congrArg Prod.fst hres2) hkne
      · rw [hn] at hn2
        cases hn2
        rw [hres] at hres2
        injection hres2 with hres2
        injection hres2 with he1 he2
        subst he1
        subst he2
        exact absurd hin hip2
      · rw [hn] at hn2
        cases hn2
        rw [hres] at hres2
        injection hres2 with hres2
        injection hres2 with he1 he2
        subst he1
        subst he2
        exact absurd hin hip2
      · rw [hn] at hn2
        cases hn2
        rw [hres] at hres2
        injection hres2 with hres2
        injection hres2 with he1 he2
        subst he1
        subst he2
        exact absurd hin hip2
      · rw [hn] at hn2
        cases hn2
        rw [hres] at hres2
        injection hres2 with hres2
        injection hres2 with he1 he2
        subst he1
        subst he2
        rw [hp] at hpage
        rcases cookiePhase_cases doc k pc r f now with
          ⟨_, _, hq⟩ | ⟨_, _, _, hq⟩ | ⟨_, _, _, hq⟩ | ⟨_, _, hq⟩ | ⟨_, _, hq⟩ <;>
          rw [hq] at hpage
        · cases hpage; exact Or.inl rfl
        · cases hpage; exact Or.inr rfl
        · simp at hpage
        · cases hpage; exact Or.inr rfl
        · simp at hpage
  · intro n pc hn hres
    simp [page, hn, hres]

/-- Claim C6 witness: a nonempty-keyed page already holding its full
complement of IPs rejects a request from a new IP with the document
unchanged. -/
theorem c6_witness :
    page [("alpha", ⟨[], "pa", ["5.5.5.5"], 1, [], 1⟩)]
        ⟨some "alpha", "9.9.9.9", none⟩ "fr" ⟨2026, 0⟩
      = Outcome.forbidden ForbiddenReason.IP_ALREADY_USED
          [("alpha", ⟨[], "pa", ["5.5.5.5"], 1, [], 1⟩)] ∨
    page [("alpha", ⟨[], "pa", ["5.5.5.5"], 1, [], 1⟩)]
        ⟨some "alpha", "9.9.9.9", none⟩ "fr" ⟨2026, 0⟩
      = Outcome.forbidden ForbiddenReason.MAX_IPS_REACHED
          [("alpha", ⟨[], "pa", ["5.5.5.5"], 1, [], 1⟩)] := by
  exact ((c6_ip_capacity _ ⟨some "alpha", "9.9.9.9", none⟩ "fr" ⟨2026, 0⟩
      (by decide)).2.1 "alpha" "alpha" ⟨[], "pa", ["5.5.5.5"], 1, [], 1⟩ rfl
      (by decide) (by decide) (by decide)).1 (by decide)

/-- Claim C7 counterexample: the claim fails as universally stated.
First scenario: the cookie `"xyz"` is bound to page `alpha` and page
`beta` is requested from a fresh IP, but `beta` is at IP capacity, so the
request is rejected `MaxIpsReached` (at step 3b) before the cookie is ever
examined — not `CookieAlreadyUsed`.  Second scenario: the empty-string
cookie bound to `alpha` is presented to `beta`, but Python treats an empty
cookie as absent, so the request takes the cookie-generation branch and is
served. -/
theorem c7_counterexample :
    page [("alpha", ⟨[], "pa", [], 1, ["xyz"], 1⟩),
          ("beta", ⟨[], "pb", ["9.9.9.9"], 1, [], 1⟩)]
        ⟨some "beta", "1.2.3.4", some "xyz"⟩ "fr" ⟨2026, 0⟩
      = Outcome.forbidden ForbiddenReason.MAX_IPS_REACHED
          [("alpha", ⟨[], "pa", [], 1, ["xyz"], 1⟩),
           ("beta", ⟨[], "pb", ["9.9.9.9"], 1, [], 1⟩)] ∧
    ForbiddenReason.MAX_IPS_REACHED ≠ ForbiddenReason.COOKIE_ALREADY_USED ∧
    page [("alpha", ⟨[], "pa", [], 1, [""], 1⟩), ("beta", ⟨[], "pb", [], 1, [], 1⟩)]
        ⟨some "beta", "1.2.3.4", some ""⟩ "fr" ⟨2026, 0⟩
      = Outcome.served "pb" "fr" ⟨2026, 0⟩
          [("alpha", ⟨[], "pa", [], 1, [""], 1⟩),
           ("beta", ⟨[], "pb", ["1.2.3.4"], 1, ["fr"], 1⟩)] := by
  refine ⟨by decide, by decide, by decide⟩

theorem mem_appendIp_of_ne {doc : Config} {k ip : String} {kv : String × PageConfig}
    (hkv : kv ∈ doc) (hne : kv.1 ≠ k) : kv ∈ appendIp doc k ip := by
  have h1 : (kv.1 == k) = false := beq_eq_false_iff_ne.mpr hne
  have h2 := List.mem_map_of_mem (fun kv =>
    if kv.1 == k then (kv.1, { kv.2 with ips := kv.2.ips ++ [ip] }) else kv) hkv
  simp only [h1, Bool.false_eq_true, if_false] at h2
  exact h2

/-- Claim C7 as amended: presenting a non-empty cookie bound to another
page while requesting page B yields `CookieAlreadyUsed` (not
`InvalidCookie`), provided B's configured key is nonempty (line 115's
truthiness test rejects an empty-keyed page `NoPage` first) and the
request passes IP admission — the IP is bound to no page and B's `ips`
list is below capacity.  The persisted document then carries the step-3c
IP append. -/
theorem c7_cookie_bound_elsewhere (doc : Config) (r : Request) (f : String)
    (now : DateTime) (n k : String) (pc : PageConfig) (c : String)
    (hn : r.name = some n) (hres : resolveName n doc = some (k, pc))
    (hkne : k ≠ "")
    (hc : r.cookie = some c) (hce : c ≠ "")
    (helse : ∃ kv ∈ doc, kv.1 ≠ k ∧ c ∈ kv.2.cookies)
    (hipfree : ∀ kv ∈ doc, r.remoteIp ∉ kv.2.ips)
    (hcap : pc.ips.length < pc.max_ips) :
    page doc r f now = Outcome.forbidden ForbiddenReason.COOKIE_ALREADY_USED
      (appendIp doc k r.remoteIp) := by
  have hmem : (k, pc) ∈ doc := (resolveName_mem hres).1
  have hnotin : r.remoteIp ∉ pc.ips := hipfree (k, pc) hmem
  have hel : ipUsedElsewhere r.remoteIp k doc = false :=
    ipUsedElsewhere_false_iff.mpr (fun kv h _ => hipfree kv h)
  have ht : truthy r.cookie = true := by rw [hc]; simp [truthy, hce]
  have hcue : cookieUsedElsewhere (r.cookie.getD "") k (appendIp doc k r.remoteIp)
      = true := by
    rcases helse with ⟨kv, hkv, hne, hcin⟩
    rw [cookieUsedElsewhere_true_iff]
    refine ⟨kv, mem_appendIp_of_ne hkv hne, hne, ?_⟩
    rw [hc]
    exact hcin
  have hkb : (k == "") = false := beq_eq_false_iff_ne.mpr hkne
  have hp : page doc r f now = cookiePhase (appendIp doc k r.remoteIp) k
      { pc with ips := pc.ips ++ [r.remoteIp] } r f now := by
    simp [page, hn, hres, hkb, hnotin, hel, Nat.not_le.mpr hcap]
  rw [hp]
  simp [cookiePhase, ht, hcue]

/-- Claim C7 witness: the amended theorem applied to the spec's own
scenario — `alpha.cookies` contains `"xyz"`, page `beta` (below IP
capacity) is requested from a fresh IP with cookie `"xyz"`, and the result
is `CookieAlreadyUsed`. -/
theorem c7_witness :
    page [("alpha", ⟨[], "pa", [], 1, ["xyz"], 1⟩), ("beta", ⟨[], "pb", [], 1, [], 1⟩)]
        ⟨some "beta", "1.2.3.4", some "xyz"⟩ "fr" ⟨2026, 0⟩
      = Outcome.forbidden ForbiddenReason.COOKIE_ALREADY_USED
          (appendIp [("alpha", ⟨[], "pa", [], 1, ["xyz"], 1⟩),
                     ("beta", ⟨[], "pb", [], 1, [], 1⟩)] "beta" "1.2.3.4") := by
  exact c7_cookie_bound_elsewhere _ _ "fr" ⟨2026, 0⟩ "beta" "beta"
    ⟨[], "pb", [], 1, [], 1⟩ "xyz" rfl (by decide) (by decide) rfl (by decide)
    ⟨("alpha", ⟨[], "pa", [], 1, ["xyz"], 1⟩), by decide, by decide, by decide⟩
    (by decide) (by decide)

/-- Claim C8: the attempted one-year extension of the cookie expiry is a
no-op.  `exp.replace(year=exp.year + 1)` returns a new value that the
source discards, so the expiry attached to every successful response is
the unextended current timestamp `now`, and never the year-extended
value. -/
theorem c8_expiry_extension_noop (doc : Config) (r : Request) (f : String)
    (now : DateTime) :
    (cookieExpiry now = now ∧
      cookieExpiry now ≠ DateTime.replace now (now.year + 1)) ∧
    (∀ p c e d, page doc r f now = Outcome.served p c e d →
      e = now ∧ e ≠ DateTime.replace now (now.year + 1)) := by
  have hne : cookieExpiry now ≠ DateTime.replace now (now.year + 1) := by
    intro hcontra
    have h2 : now.year = now.year + 1 := congrArg DateTime.year hcontra
    omega
  refine ⟨⟨rfl, hne⟩, ?_⟩
  intro p c e d h
  have he : e = cookieExpiry now := page_served_expiry h
  exact ⟨he, by rw [he]; exact hne⟩

/-- Claim C8 witness: a concrete admission at timestamp year 2026; the
response expiry equals that timestamp, not its year-2027 extension. -/
theorem c8_witness :
    page [("alpha", ⟨[], "pa", [], 1, [], 1⟩)] ⟨some "alpha", "1.2.3.4", none⟩
        "fresh" ⟨2026, 0⟩
      = Outcome.served "pa" "fresh" ⟨2026, 0⟩
          [("alpha", ⟨[], "pa", ["1.2.3.4"], 1, ["fresh"], 1⟩)] ∧
    (⟨2026, 0⟩ : DateTime) = ⟨2026, 0⟩ ∧
    (⟨2026, 0⟩ : DateTime) ≠ DateTime.replace ⟨2026, 0⟩ (2026 + 1) := by
  have h : page [("alpha", ⟨[], "pa", [], 1, [], 1⟩)]
      ⟨some "alpha", "1.2.3.4", none⟩ "fresh" ⟨2026, 0⟩
      = Outcome.served "pa" "fresh" ⟨2026, 0⟩
        [("alpha", ⟨[], "pa", ["1.2.3.4"], 1, ["fresh"], 1⟩)] := by decide
  have h2 := (c8_expiry_extension_noop [("alpha", ⟨[], "pa", [], 1, [], 1⟩)]
      ⟨some "alpha", "1.2.3.4", none⟩ "fresh" ⟨2026, 0⟩).2 "pa" "fresh"
      ⟨2026, 0⟩ [("alpha", ⟨[], "pa", ["1.2.3.4"], 1, ["fresh"], 1⟩)] h
  exact ⟨h, h2.1, h2.2⟩

/-- Claim C9: a present-but-empty `name` query parameter is not rejected
`NoName` (only an absent parameter is); it proceeds to resolution and, on
any configuration in which no page name or alias is the empty string, is
rejected `NoPage`; the diagnostic record omits `entered_name` because the
empty string is falsy. -/
theorem c9_empty_name (doc : Config) (ip : String) (ck : Option String)
    (f : String) (now : DateTime)
    (h : ∀ kv ∈ doc, kv.1 ≠ "" ∧ "" ∉ kv.2.aliases) :
    page doc ⟨some "", ip, ck⟩ f now = Outcome.forbidden ForbiddenReason.NO_PAGE doc ∧
    ForbiddenReason.NO_PAGE ≠ ForbiddenReason.NO_NAME ∧
    (mkDiagnostic doc ⟨some "", ip, ck⟩ ForbiddenReason.NO_PAGE).entered_name
      = none := by
  have hres : resolveName "" doc = none := by
    rw [resolveName_eq_none_iff]
    intro kv hm
    apply Bool.eq_false_iff.mpr
    intro ht
    rcases nameMatches_iff.mp ht with h1 | h1
    · exact (h kv hm).1 h1.symm
    · exact (h kv hm).2 h1
  refine ⟨by simp [page, hres], by decide, by simp [mkDiagnostic, truthy]⟩

/-- Claim C9 witness: the theorem applied to a one-page configuration. -/
theorem c9_witness :
    page [("alpha", ⟨[], "p", [], 1, [], 1⟩)] ⟨some "", "1.2.3.4", none⟩ "fr" ⟨2026, 0⟩
      = Outcome.forbidden ForbiddenReason.NO_PAGE [("alpha", ⟨[], "p", [], 1, [], 1⟩)] ∧
    (mkDiagnostic [("alpha", ⟨[], "p", [], 1, [], 1⟩)] ⟨some "", "1.2.3.4", none⟩
        ForbiddenReason.NO_PAGE).entered_name = none := by
  have h := c9_empty_name [("alpha", ⟨[], "p", [], 1, [], 1⟩)] "1.2.3.4" none
    "fr" ⟨2026, 0⟩ (by decide)
  exact ⟨h.1, h.2.2⟩

/-- Claim C10: frame property of cookie reuse.  If a request presenting a
non-empty cookie is served, the response sets back exactly the presented
cookie value and no page's `cookies` list changes (the only served path
with a presented cookie is the reuse branch, which performs no append). -/
theorem c10_cookie_reuse_frame (doc : Config) (r : Request) (f : String)
    (now : DateTime) (c p ck : String) (e : DateTime) (d : Config)
    (hc : r.cookie = some c) (hcne : c ≠ "")
    (h : page doc r f now = Outcome.served p ck e d) :
    ck = c ∧ cookiesProj d = cookiesProj doc := by
  have ht : truthy r.cookie = true := by rw [hc]; simp [truthy, hcne]
  rcases page_cases doc r f now with
    ⟨_, hp⟩ | ⟨_, _, _, hp⟩ | ⟨_, _, _, _, hp⟩ | ⟨_, _, _, _, _, _, _, _, hp⟩ |
    ⟨_, _, _, _, _, _, _, _, _, hp⟩ | ⟨n, k, pc, _, _, _, _, _, _, hp⟩ |
    ⟨n, k, pc, _, _, _, _, hp⟩
  · rw [hp] at h; simp at h
  · rw [hp] at h; simp at h
  · rw [hp] at h; simp at h
  · rw [hp] at h; simp at h
  · rw [hp] at h; simp at h
  · rw [hp] at h
    rcases cookiePhase_cases (appendIp doc k r.remoteIp) k
        { pc with ips := pc.ips ++ [r.remoteIp] } r f now with
      ⟨_, _, hq⟩ | ⟨_, _, _, hq⟩ | ⟨_, _, _, hq⟩ | ⟨hf2, _, hq⟩ | ⟨hf2, _, hq⟩ <;>
      rw [hq] at h
    · simp at h
    · simp at h
    · simp at h
      have hck : ck = c := by
        have h2 := h.2.1
        rw [hc] at h2
        exact h2.symm
      refine ⟨hck, ?_⟩
      rw [← h.2.2.2]
      exact cookiesProj_appendIp doc k r.remoteIp
    · rw [hf2] at ht; cases ht
    · rw [hf2] at ht; cases ht
  · rw [hp] at h
    rcases cookiePhase_cases doc k pc r f now with
      ⟨_, _, hq⟩ | ⟨_, _, _, hq⟩ | ⟨_, _, _, hq⟩ | ⟨hf2, _, hq⟩ | ⟨hf2, _, hq⟩ <;>
      rw [hq] at h
    · simp at h
    · simp at h
    · simp at h
      have hck : ck = c := by
        have h2 := h.2.1
        rw [hc] at h2
        exact h2.symm
      refine ⟨hck, ?_⟩
      rw [← h.2.2.2]
    · rw [hf2] at ht; cases ht
    · rw [hf2] at ht; cases ht

/-- Claim C10 witness: a request reusing its own page's bound cookie is
served with the same cookie and unchanged `cookies` lists. -/
theorem c10_witness :
    page [("alpha", ⟨[], "pa", ["1.2.3.4"], 1, ["secret"], 1⟩)]
        ⟨some "alpha", "1.2.3.4", some "secret"⟩ "fr" ⟨2026, 0⟩
      = Outcome.served "pa" "secret" ⟨2026, 0⟩
          [("alpha", ⟨[], "pa", ["1.2.3.4"], 1, ["secret"], 1⟩)] ∧
    "secret" = "secret" ∧
    cookiesProj [("alpha", ⟨[], "pa", ["1.2.3.4"], 1, ["secret"], 1⟩)]
      = cookiesProj [("alpha", ⟨[], "pa", ["1.2.3.4"], 1, ["secret"], 1⟩)] := by
  have h : page [("alpha", ⟨[], "pa", ["1.2.3.4"], 1, ["secret"], 1⟩)]
      ⟨some "alpha", "1.2.3.4", some "secret"⟩ "fr" ⟨2026, 0⟩
      = Outcome.served "pa" "secret" ⟨2026, 0⟩
        [("alpha", ⟨[], "pa", ["1.2.3.4"], 1, ["secret"], 1⟩)] := by decide
  have h2 := c10_cookie_reuse_frame [("alpha", ⟨[], "pa", ["1.2.3.4"], 1, ["secret"], 1⟩)]
    ⟨some "alpha", "1.2.3.4", some "secret"⟩ "fr" ⟨2026, 0⟩ "secret" "pa" "secret"
    ⟨2026, 0⟩ [("alpha", ⟨[], "pa", ["1.2.3.4"], 1, ["secret"], 1⟩)] rfl
    (by decide) h
  exact ⟨h, h2.1, h2.2⟩
